import Mathlib

/-!
Shallow embedding of the Student and Teacher CRUD request handlers of the
school-api repository (files src/unnamed/part_000 and
src/src/controllers/teacher.controller.js).  Each handler is modelled as a
pure function from the request data and a persistence environment to a
handler result: the outcome (either a response that was sent, or a rejection
that escaped the handler uncaught), the entity table after the request, and
the ordered trace of calls issued to the persistence collaborator.
-/

namespace SchoolApi

/-- A persisted row of an entity: the integer primary key plus named string
attributes, mirroring an instance object of the object-relational mapper. -/
structure Rec where
  id : Int
  attrs : List (String × String)
deriving DecidableEq

/-- A request body or patch: a JSON object, as attribute names with values. -/
abbrev Patch := List (String × String)

/-- The query parameters a list request may carry; none models an absent
parameter (undefined in the handler). -/
structure Query where
  page : Option String
  limit : Option String
  sortBy : Option String
  order : Option String
  populate : Option String
deriving DecidableEq

/-- The models that can appear in an include list; only Course is ever
referenced by the handlers. -/
inductive Model
  | Course
deriving DecidableEq

/-- The argument object of a findAll call, as built at lines 76-80 of the
student controller and lines 101-105 of the teacher controller. -/
structure FindAllArgs where
  includes : List Model
  limit : Int
  offset : Int
  order : List (String × String)
deriving DecidableEq

/-- One call issued to the persistence collaborator, with its arguments. -/
inductive DbCall
  | create (body : Patch)
  | count
  | findAll (args : FindAllArgs)
  | findByPk (id : Int) (includes : List Model)
  | instanceUpdate (row : Rec) (patch : Patch)
  | instanceDestroy (row : Rec)
deriving DecidableEq

/-- The meta object of a list response envelope. -/
structure Meta where
  totalItems : Int
  page : Int
  totalPages : Int
deriving DecidableEq

/-- A JSON response body. -/
inductive Body
  | record (r : Rec)
  | listing (meta : Meta) (data : List Rec)
  | err (e : String)
  | msg (m : String)
deriving DecidableEq

/-- An HTTP response: status code and JSON body. -/
structure Response where
  status : Nat
  body : Body
deriving DecidableEq

/-- The persistence environment a handler invocation runs against: the rows
of the entity's own table, the outcome of db.Course.count(), the outcome of
findAll as a function of its argument object, the outcome of create as a
function of the body, and optional failures of findByPk and of the instance
update and destroy methods (some e models a rejection with message e). -/
structure Env where
  table : List Rec
  count : Except String Int
  findAll : FindAllArgs → Except String (List Rec)
  create : Patch → Except String Rec
  findByPkErr : Option String
  updateErr : Option String
  destroyErr : Option String

/-- Equality of persistence outcomes is decidable. -/
instance exceptDecEq {ε α : Type} [DecidableEq ε] [DecidableEq α] :
    DecidableEq (Except ε α) := fun a b =>
  match a, b with
  | Except.error e, Except.error f =>
      if h : e = f then isTrue (by rw [h])
      else isFalse (by intro hh; cases hh; exact h rfl)
  | Except.ok x, Except.ok y =>
      if h : x = y then isTrue (by rw [h])
      else isFalse (by intro hh; cases hh; exact h rfl)
  | Except.error _, Except.ok _ => isFalse (by intro hh; cases hh)
  | Except.ok _, Except.error _ => isFalse (by intro hh; cases hh)

/-- The result of one handler invocation: the outcome (Except.error e models
a rejection escaping the handler uncaught, Except.ok r a response actually
sent), the entity table afterwards, and the persistence calls made, in
order. -/
structure HandlerResult where
  outcome : Except String Response
  table : List Rec
  trace : List DbCall
deriving DecidableEq

/-- Numeric value of a run of decimal digit characters. -/
def digitsVal (ds : List Char) : Nat :=
  ds.foldl (fun a c => a * 10 + (c.toNat - 48)) 0

/-- The maximal leading run of decimal digits of a character list, as a
number; none when that run is empty. -/
def digitsOf (cs : List Char) : Option Nat :=
  let ds := cs.takeWhile Char.isDigit
  if ds.isEmpty then none else some (digitsVal ds)

/-- Model of the JavaScript parseInt builtin on a decimal numeral: skip
leading spaces, read an optional sign, then the maximal run of decimal
digits; none models NaN (no digit found). -/
def jsParseInt (s : String) : Option Int :=
  match s.toList.dropWhile (fun c => c == ' ') with
  | '-' :: r => (digitsOf r).map (fun n => -(n : Int))
  | '+' :: r => (digitsOf r).map (fun n => (n : Int))
  | r => (digitsOf r).map (fun n => (n : Int))

/-- JavaScript truthiness fallback on a parsed number, as in
parseInt(x) || d at lines 59 and 61 of the student controller: NaN (none)
and 0 are falsy and give the default, every other number passes through. -/
def jsOrInt (v : Option Int) (d : Int) : Int :=
  match v with
  | none => d
  | some n => if n = 0 then d else n

/-- JavaScript truthiness fallback on an optional string, as in
req.query.sortBy || d at lines 63 and 65: undefined and the empty string
are falsy and give the default. -/
def strOr (v : Option String) (d : String) : String :=
  match v with
  | none => d
  | some s => if s = "" then d else s

/-- Effective limit of a list request: parseInt(req.query.limit) || 10
(line 59 of the student controller, line 81 of the teacher controller). -/
def effLimit (q : Query) : Int :=
  jsOrInt (q.limit.bind jsParseInt) 10

/-- Effective page of a list request: parseInt(req.query.page) || 1
(line 61 of the student controller, line 83 of the teacher controller). -/
def effPage (q : Query) : Int :=
  jsOrInt (q.page.bind jsParseInt) 1

/-- Effective sort column: req.query.sortBy || the string id (line 63 of the
student controller, line 85 of the teacher controller). -/
def effSortBy (q : Query) : String :=
  strOr q.sortBy "id"

/-- Effective sort direction: req.query.order || the lowercase string asc
(line 65 of the student controller, line 87 of the teacher controller). -/
def effOrder (q : Query) : String :=
  strOr q.order "asc"

/-- Splitting a character list on commas, accumulating the current piece in
reverse; on the empty input the current piece still yields one string, so
the split of the empty string is the singleton empty string, as for the
JavaScript split method. -/
def splitCommaAux : List Char → List Char → List String
  | [], acc => [String.mk acc.reverse]
  | c :: cs, acc =>
      if c == ',' then String.mk acc.reverse :: splitCommaAux cs []
      else splitCommaAux cs (c :: acc)

/-- Model of the JavaScript string split method with a comma separator. -/
def splitComma (s : String) : List String :=
  splitCommaAux s.toList []

/-- The populate parameter split on commas; an absent parameter gives the
empty list through optional chaining (line 69 of the student controller,
line 89 of the teacher controller). -/
def populateList (q : Query) : List String :=
  match q.populate with
  | none => []
  | some s => splitComma s

/-- The includes list of a list request: the Course model exactly when the
split populate list has an element equal to the string Course (lines 71-73
of the student controller, lines 91-93 of the teacher controller). -/
def listIncludes (q : Query) : List Model :=
  if ((populateList q).find? (fun e => e == "Course")).isSome then
    [Model.Course]
  else []

/-- Model of Math.ceil(a / b) on integers, the ceiling of the rational
a / b: computed with Euclidean division on the sign-adjusted operands. -/
def jsCeilDiv (a b : Int) : Int :=
  if 0 ≤ b then -((-a) / b) else -(a / (-b))

/-- The findAll argument object a list request builds: the includes list,
limit, offset (page - 1) * limit, and the order pair (lines 76-80 of the
student controller, lines 101-105 of the teacher controller). -/
def listArgs (q : Query) : FindAllArgs :=
  ⟨listIncludes q, effLimit q, (effPage q - 1) * effLimit q,
    [(effSortBy q, effOrder q)]⟩

/-- Embedding of createStudent (student controller, lines 12-19): one create
call; success answers 201 with the new record, failure is caught and answers
500 with the raw message. -/
def createStudent (env : Env) (body : Patch) : HandlerResult :=
  match env.create body with
  | Except.error e =>
      ⟨Except.ok ⟨500, Body.err e⟩, env.table, [DbCall.create body]⟩
  | Except.ok student =>
      ⟨Except.ok ⟨201, Body.record student⟩, env.table ++ [student],
        [DbCall.create body]⟩

/-- Embedding of getAllStudents (student controller, lines 57-92): parse the
paging and sort parameters, await db.Course.count() before the try block
(line 67), build the includes list from populate, then findAll inside the
try block; a count failure therefore escapes the handler uncaught. -/
def getAllStudents (env : Env) (q : Query) : HandlerResult :=
  match env.count with
  | Except.error e => ⟨Except.error e, env.table, [DbCall.count]⟩
  | Except.ok total =>
    match env.findAll (listArgs q) with
    | Except.error e =>
        ⟨Except.ok ⟨500, Body.err e⟩, env.table,
          [DbCall.count, DbCall.findAll (listArgs q)]⟩
    | Except.ok students =>
        ⟨Except.ok ⟨200,
            Body.listing ⟨total, effPage q, jsCeilDiv total (effLimit q)⟩
              students⟩,
          env.table, [DbCall.count, DbCall.findAll (listArgs q)]⟩

/-- Embedding of getStudentById (student controller, lines 111-119): one
findByPk call that always passes the Course model as include; null answers
404 with the fixed message, a failure is caught and answers 500. -/
def getStudentById (env : Env) (_q : Query) (id : Int) : HandlerResult :=
  match env.findByPkErr with
  | some e =>
      ⟨Except.ok ⟨500, Body.err e⟩, env.table,
        [DbCall.findByPk id [Model.Course]]⟩
  | none =>
    match env.table.find? (fun r => r.id == id) with
    | none =>
        ⟨Except.ok ⟨404, Body.msg "Not found"⟩, env.table,
          [DbCall.findByPk id [Model.Course]]⟩
    | some r =>
        ⟨Except.ok ⟨200, Body.record r⟩, env.table,
          [DbCall.findByPk id [Model.Course]]⟩

/-- Replace the value of attribute k, or append it when absent, as the
object-relational mapper's instance set does for one patch entry. -/
def setAttr (attrs : List (String × String)) (k v : String) :
    List (String × String) :=
  if attrs.any (fun kv => kv.1 == k) then
    attrs.map (fun kv => if kv.1 == k then (k, v) else kv)
  else attrs ++ [(k, v)]

/-- Apply every entry of a patch to an attribute list, in order. -/
def patchAttrs (attrs : List (String × String)) (p : Patch) :
    List (String × String) :=
  p.foldl (fun a kv => setAttr a kv.1 kv.2) attrs

/-- The record after instance.update(patch): the id is untouched, each
attribute named in the patch is set, every other attribute is kept. -/
def applyPatch (r : Rec) (p : Patch) : Rec :=
  ⟨r.id, patchAttrs r.attrs p⟩

/-- The value of attribute k of a record, when present. -/
def getAttr (r : Rec) (k : String) : Option String :=
  (r.attrs.find? (fun kv => kv.1 == k)).map (fun kv => kv.2)

/-- Embedding of updateStudent (student controller, lines 141-150): findByPk
without include, 404 on null, otherwise instance update with the body and a
200 response holding the updated record; failures are caught as 500. -/
def updateStudent (env : Env) (id : Int) (body : Patch) : HandlerResult :=
  match env.findByPkErr with
  | some e =>
      ⟨Except.ok ⟨500, Body.err e⟩, env.table, [DbCall.findByPk id []]⟩
  | none =>
    match env.table.find? (fun r => r.id == id) with
    | none =>
        ⟨Except.ok ⟨404, Body.msg "Not found"⟩, env.table,
          [DbCall.findByPk id []]⟩
    | some student =>
      match env.updateErr with
      | some e =>
          ⟨Except.ok ⟨500, Body.err e⟩, env.table,
            [DbCall.findByPk id [], DbCall.instanceUpdate student body]⟩
      | none =>
          ⟨Except.ok ⟨200, Body.record (applyPatch student body)⟩,
            env.table.map (fun r => if r.id == id then applyPatch r body else r),
            [DbCall.findByPk id [], DbCall.instanceUpdate student body]⟩

/-- Embedding of deleteStudent (student controller, lines 167-176): findByPk
without include, 404 on null, otherwise instance destroy and a 200 response
with the fixed Deleted message; failures are caught as 500. -/
def deleteStudent (env : Env) (id : Int) : HandlerResult :=
  match env.findByPkErr with
  | some e =>
      ⟨Except.ok ⟨500, Body.err e⟩, env.table, [DbCall.findByPk id []]⟩
  | none =>
    match env.table.find? (fun r => r.id == id) with
    | none =>
        ⟨Except.ok ⟨404, Body.msg "Not found"⟩, env.table,
          [DbCall.findByPk id []]⟩
    | some student =>
      match env.destroyErr with
      | some e =>
          ⟨Except.ok ⟨500, Body.err e⟩, env.table,
            [DbCall.findByPk id [], DbCall.instanceDestroy student]⟩
      | none =>
          ⟨Except.ok ⟨200, Body.msg "Deleted"⟩,
            env.table.filter (fun r => r.id != id),
            [DbCall.findByPk id [], DbCall.instanceDestroy student]⟩

/-- Embedding of createTeacher (teacher controller, lines 34-41); the body
is the same as the student handler, over the teacher table. -/
def createTeacher (env : Env) (body : Patch) : HandlerResult :=
  match env.create body with
  | Except.error e =>
      ⟨Except.ok ⟨500, Body.err e⟩, env.table, [DbCall.create body]⟩
  | Except.ok teacher =>
      ⟨Except.ok ⟨201, Body.record teacher⟩, env.table ++ [teacher],
        [DbCall.create body]⟩

/-- Embedding of getAllTeachers (teacher controller, lines 79-117): same
logic as getAllStudents, with the includes list built just before the
db.Course.count() call, which is likewise awaited outside the try block
(line 99). -/
def getAllTeachers (env : Env) (q : Query) : HandlerResult :=
  match env.count with
  | Except.error e => ⟨Except.error e, env.table, [DbCall.count]⟩
  | Except.ok total =>
    match env.findAll (listArgs q) with
    | Except.error e =>
        ⟨Except.ok ⟨500, Body.err e⟩, env.table,
          [DbCall.count, DbCall.findAll (listArgs q)]⟩
    | Except.ok teachers =>
        ⟨Except.ok ⟨200,
            Body.listing ⟨total, effPage q, jsCeilDiv total (effLimit q)⟩
              teachers⟩,
          env.table, [DbCall.count, DbCall.findAll (listArgs q)]⟩

/-- Embedding of getTeacherById (teacher controller, lines 136-144). -/
def getTeacherById (env : Env) (_q : Query) (id : Int) : HandlerResult :=
  match env.findByPkErr with
  | some e =>
      ⟨Except.ok ⟨500, Body.err e⟩, env.table,
        [DbCall.findByPk id [Model.Course]]⟩
  | none =>
    match env.table.find? (fun r => r.id == id) with
    | none =>
        ⟨Except.ok ⟨404, Body.msg "Not found"⟩, env.table,
          [DbCall.findByPk id [Model.Course]]⟩
    | some r =>
        ⟨Except.ok ⟨200, Body.record r⟩, env.table,
          [DbCall.findByPk id [Model.Course]]⟩

/-- Embedding of updateTeacher (teacher controller, lines 172-181). -/
def updateTeacher (env : Env) (id : Int) (body : Patch) : HandlerResult :=
  match env.findByPkErr with
  | some e =>
      ⟨Except.ok ⟨500, Body.err e⟩, env.table, [DbCall.findByPk id []]⟩
  | none =>
    match env.table.find? (fun r => r.id == id) with
    | none =>
        ⟨Except.ok ⟨404, Body.msg "Not found"⟩, env.table,
          [DbCall.findByPk id []]⟩
    | some teacher =>
      match env.updateErr with
      | some e =>
          ⟨Except.ok ⟨500, Body.err e⟩, env.table,
            [DbCall.findByPk id [], DbCall.instanceUpdate teacher body]⟩
      | none =>
          ⟨Except.ok ⟨200, Body.record (applyPatch teacher body)⟩,
            env.table.map (fun r => if r.id == id then applyPatch r body else r),
            [DbCall.findByPk id [], DbCall.instanceUpdate teacher body]⟩

/-- Embedding of deleteTeacher (teacher controller, lines 198-207). -/
def deleteTeacher (env : Env) (id : Int) : HandlerResult :=
  match env.findByPkErr with
  | some e =>
      ⟨Except.ok ⟨500, Body.err e⟩, env.table, [DbCall.findByPk id []]⟩
  | none =>
    match env.table.find? (fun r => r.id == id) with
    | none =>
        ⟨Except.ok ⟨404, Body.msg "Not found"⟩, env.table,
          [DbCall.findByPk id []]⟩
    | some teacher =>
      match env.destroyErr with
      | some e =>
          ⟨Except.ok ⟨500, Body.err e⟩, env.table,
            [DbCall.findByPk id [], DbCall.instanceDestroy teacher]⟩
      | none =>
          ⟨Except.ok ⟨200, Body.msg "Deleted"⟩,
            env.table.filter (fun r => r.id != id),
            [DbCall.findByPk id [], DbCall.instanceDestroy teacher]⟩

/-- The integer computation modelling Math.ceil of a quotient agrees with
the mathematical ceiling of the rational quotient. -/
theorem jsCeilDiv_eq_ceil (a b : Int) :
    jsCeilDiv a b = ⌈(a : ℚ) / (b : ℚ)⌉ := by
  unfold jsCeilDiv
  rcases le_or_lt 0 b with hb | hb
  · obtain ⟨n, rfl⟩ := Int.eq_ofNat_of_zero_le hb
    rw [if_pos hb]
    have hfl : ⌊(((-a : ℤ) : ℚ)) / ((n : ℕ) : ℚ)⌋ = (-a) / ((n : ℕ) : ℤ) :=
      Rat.floor_intCast_div_natCast (-a) n
    have hneg : ((a : ℚ)) / (((n : ℤ) : ℚ)) =
        -((((-a : ℤ) : ℚ)) / ((n : ℕ) : ℚ)) := by
      push_cast
      ring
    rw [hneg, Int.ceil_neg, hfl]
  · rw [if_neg (not_le.mpr hb)]
    obtain ⟨n, hn⟩ := Int.eq_ofNat_of_zero_le (by omega : (0 : ℤ) ≤ -b)
    have hfl : ⌊((a : ℚ)) / ((n : ℕ) : ℚ)⌋ = a / ((n : ℕ) : ℤ) :=
      Rat.floor_intCast_div_natCast a n
    have hbq : ((b : ℚ)) = -((n : ℕ) : ℚ) := by
      have hcast : ((-b : ℤ) : ℚ) = (((n : ℕ) : ℤ) : ℚ) := by rw [hn]
      push_cast at hcast
      linarith
    have hq : ((a : ℚ)) / ((b : ℚ)) = -((a : ℚ) / ((n : ℕ) : ℚ)) := by
      rw [hbq, div_neg]
    rw [hq, Int.ceil_neg, hfl, hn]

/-- The JavaScript truthiness fallback never returns 0 when the default is
nonzero. -/
theorem jsOrInt_ne_zero (v : Option Int) (d : Int) (hd : d ≠ 0) :
    jsOrInt v d ≠ 0 := by
  unfold jsOrInt
  cases v with
  | none => exact hd
  | some n =>
    by_cases h : n = 0
    · simp [h, hd]
    · simp [h]

/-- The effective limit of a list request is never 0: 0 is falsy, so the
default 10 replaces it. -/
theorem effLimit_ne_zero (q : Query) : effLimit q ≠ 0 :=
  jsOrInt_ne_zero _ _ (by decide)

/-- When db.Course.count() succeeds, both list handlers issue exactly the
count call followed by one findAll call with the argument object built from
the query. -/
theorem list_trace (env : Env) (q : Query) (t : Int)
    (h : env.count = Except.ok t) :
    (getAllStudents env q).trace =
      [DbCall.count, DbCall.findAll (listArgs q)] ∧
    (getAllTeachers env q).trace =
      [DbCall.count, DbCall.findAll (listArgs q)] := by
  constructor <;>
  · simp only [getAllStudents, getAllTeachers, h]
    rcases hf : env.findAll (listArgs q) with e | rows <;> simp [hf]

/-- The list handlers depend on the query only through the effective
parameters and the populate list. -/
theorem getAll_congr (env : Env) (q q' : Query)
    (h1 : effLimit q = effLimit q') (h2 : effPage q = effPage q')
    (h3 : effSortBy q = effSortBy q') (h4 : effOrder q = effOrder q')
    (h5 : populateList q = populateList q') :
    getAllStudents env q = getAllStudents env q' ∧
    getAllTeachers env q = getAllTeachers env q' := by
  have hargs : listArgs q = listArgs q' := by
    simp only [listArgs, listIncludes, h1, h2, h3, h4, h5]
  constructor <;>
    simp only [getAllStudents, getAllTeachers, hargs, h1, h2]

/-- Setting attribute k' by mapping over the list leaves lookups of a
different key k unchanged. -/
theorem find?_map_set (attrs : List (String × String)) (k k' v : String)
    (h : (k' == k) = false) :
    (attrs.map (fun kv => if kv.1 == k' then (k', v) else kv)).find?
        (fun kv => kv.1 == k) =
      attrs.find? (fun kv => kv.1 == k) := by
  induction attrs with
  | nil => rfl
  | cons a tl ih =>
    cases ha : (a.1 == k') with
    | true =>
      have ha' : a.1 = k' := by simpa using ha
      have hk : (a.1 == k) = false := by rw [ha']; exact h
      simp only [List.map_cons, ha, if_true, List.find?_cons, h, hk]
      exact ih
    | false =>
      simp only [List.map_cons, ha, Bool.false_eq_true, if_false,
        List.find?_cons]
      cases hak : (a.1 == k) with
      | true => simp only [hak]
      | false => simpa only [hak] using ih

/-- Setting attribute k' leaves lookups of a different key k unchanged. -/
theorem find?_setAttr_ne (attrs : List (String × String)) (k k' v : String)
    (h : (k' == k) = false) :
    (setAttr attrs k' v).find? (fun kv => kv.1 == k) =
      attrs.find? (fun kv => kv.1 == k) := by
  unfold setAttr
  cases hany : (attrs.any (fun kv => kv.1 == k')) with
  | true =>
    simp only [hany, if_true]
    exact find?_map_set attrs k k' v h
  | false =>
    simp only [hany, Bool.false_eq_true, if_false, List.find?_append]
    have hone : ([(k', v)] : List (String × String)).find?
        (fun kv => kv.1 == k) = none := by
      simp [List.find?_cons, h]
    rw [hone, Option.or_none]

/-- Applying a patch that does not name key k leaves lookups of k
unchanged. -/
theorem find?_patchAttrs_not_mem (p : Patch) :
    ∀ (attrs : List (String × String)) (k : String),
      p.find? (fun kv => kv.1 == k) = none →
      (patchAttrs attrs p).find? (fun kv => kv.1 == k) =
        attrs.find? (fun kv => kv.1 == k) := by
  induction p with
  | nil => intro attrs k _; rfl
  | cons a tl ih =>
    intro attrs k h
    cases hh : (a.1 == k) with
    | true =>
      exfalso
      simp only [List.find?_cons, hh] at h
      exact Option.noConfusion h
    | false =>
      have htl : tl.find? (fun kv => kv.1 == k) = none := by
        simpa only [List.find?_cons, hh] using h
      show (patchAttrs (setAttr attrs a.1 a.2) tl).find? _ = _
      rw [ih (setAttr attrs a.1 a.2) k htl]
      exact find?_setAttr_ne attrs k a.1 a.2 hh

/-- Frame property of the patch application: an attribute not named in the
patch keeps its value. -/
theorem getAttr_applyPatch_not_mem (r : Rec) (p : Patch) (k : String)
    (h : p.find? (fun kv => kv.1 == k) = none) :
    getAttr (applyPatch r p) k = getAttr r k := by
  unfold getAttr applyPatch
  rw [find?_patchAttrs_not_mem p r.attrs k h]

/-- A sample stored row. -/
def rowAlice : Rec := ⟨1, [("name", "Alice"), ("department", "Math")]⟩

/-- An environment whose persistence calls all succeed. -/
def envOk : Env :=
  ⟨[rowAlice], Except.ok 5, fun _ => Except.ok [],
    fun b => Except.ok ⟨7, b⟩, none, none, none⟩

/-- An environment whose count call rejects. -/
def envCountFail : Env :=
  ⟨[], Except.error "boom", fun _ => Except.ok [],
    fun b => Except.ok ⟨7, b⟩, none, none, none⟩

/-- An environment whose findAll call rejects. -/
def envFindAllFail : Env :=
  ⟨[], Except.ok 5, fun _ => Except.error "ffail",
    fun b => Except.ok ⟨7, b⟩, none, none, none⟩

/-- An environment whose create call rejects. -/
def envCreateFail : Env :=
  ⟨[], Except.ok 5, fun _ => Except.ok [],
    fun _ => Except.error "cfail", none, none, none⟩

/-- An environment whose findByPk call rejects. -/
def envPkFail : Env :=
  ⟨[rowAlice], Except.ok 5, fun _ => Except.ok [],
    fun b => Except.ok ⟨7, b⟩, some "pfail", none, none⟩

/-- An environment whose instance update call rejects. -/
def envUpdateFail : Env :=
  ⟨[rowAlice], Except.ok 5, fun _ => Except.ok [],
    fun b => Except.ok ⟨7, b⟩, none, some "ufail", none⟩

/-- An environment whose instance destroy call rejects. -/
def envDestroyFail : Env :=
  ⟨[rowAlice], Except.ok 5, fun _ => Except.ok [],
    fun b => Except.ok ⟨7, b⟩, none, none, some "dfail"⟩

/-- The query with every parameter absent. -/
def qNone : Query := ⟨none, none, none, none, none⟩

/-- A query asking to populate Course. -/
def qCourse : Query := ⟨none, none, none, none, some "Course"⟩

/-- A query with non-numeric page and limit. -/
def qBad : Query := ⟨some "abc", some "xyz", none, none, none⟩

/-- A query with a negative page and a zero limit. -/
def qZeroNeg : Query := ⟨some "-2", some "0", none, none, none⟩

/-- A query with limit 2. -/
def qLim2 : Query := ⟨none, some "2", none, none, none⟩

/-- The includes list is the Course singleton exactly when the split
populate list contains the element Course, and empty otherwise. -/
theorem listIncludes_spec (q : Query) :
    (listIncludes q = [Model.Course] ↔ "Course" ∈ populateList q) ∧
    ("Course" ∉ populateList q → listIncludes q = []) := by
  have key : ((populateList q).find? (fun e => e == "Course")).isSome = true ↔
      "Course" ∈ populateList q := by
    rw [List.find?_isSome]
    constructor
    · rintro ⟨x, hx, hpx⟩
      have hx' : x = "Course" := by simpa using hpx
      rwa [hx'] at hx
    · intro hm
      exact ⟨"Course", hm, by simp⟩
  unfold listIncludes
  cases hC : ((populateList q).find? (fun e => e == "Course")).isSome with
  | true =>
    constructor
    · simp only [if_true]
      simp [key.mp hC]
    · intro hnm
      exact absurd (key.mp hC) hnm
  | false =>
    constructor
    · simp only [Bool.false_eq_true, if_false]
      constructor
      · intro hc
        exact absurd hc (by simp)
      · intro hm
        have h2 := key.mpr hm
        rw [hC] at h2
        exact Bool.noConfusion h2
    · intro _
      simp only [Bool.false_eq_true, if_false]

/-- Any findAll call a list handler issues carries exactly the argument
object built from the query. -/
theorem findAll_mem_eq (env : Env) (q : Query) (args : FindAllArgs)
    (h : DbCall.findAll args ∈ (getAllStudents env q).trace ∨
      DbCall.findAll args ∈ (getAllTeachers env q).trace) :
    args = listArgs q := by
  rcases h with hm | hm <;>
  · simp only [getAllStudents, getAllTeachers] at hm
    cases hc : env.count with
    | error e => simp [hc] at hm
    | ok t =>
      simp only [hc] at hm
      cases hf : env.findAll (listArgs q) with
      | error e =>
        simp only [hf] at hm
        simpa using hm
      | ok rows =>
        simp only [hf] at hm
        simpa using hm

/-- C4: for every get-by-id request on Student or Teacher, the findByPk
lookup passed to the persistence layer always includes the Course model,
regardless of the query parameters of the request. -/
theorem c4_get_by_id_always_joins_course (env : Env) (q : Query) (id : Int) :
    (getStudentById env q id).trace = [DbCall.findByPk id [Model.Course]] ∧
    (getTeacherById env q id).trace = [DbCall.findByPk id [Model.Course]] := by
  constructor <;>
  · simp only [getStudentById, getTeacherById]
    cases hp : env.findByPkErr with
    | some e => simp [hp]
    | none =>
      simp only [hp]
      cases hf : env.table.find? (fun r => r.id == id) <;> simp [hf]

/-- C3: on every list request whose count call succeeds, both handlers issue
one findAll whose include list joins the Course relation exactly when the
populate parameter split on commas contains the element Course; when
populate is absent or has no such element the include list is empty. -/
theorem c3_populate_course (env : Env) (q : Query) (t : Int)
    (h : env.count = Except.ok t) :
    ((getAllStudents env q).trace =
        [DbCall.count, DbCall.findAll (listArgs q)] ∧
      (getAllTeachers env q).trace =
        [DbCall.count, DbCall.findAll (listArgs q)]) ∧
    ((listArgs q).includes = [Model.Course] ↔ "Course" ∈ populateList q) ∧
    ("Course" ∉ populateList q → (listArgs q).includes = []) := by
  refine ⟨list_trace env q t h, ?_, ?_⟩
  · exact (listIncludes_spec q).1
  · exact (listIncludes_spec q).2

/-- C3 witness: with populate set to Course, the student list handler issues
a findAll whose include list is the Course singleton. -/
theorem c3_witness :
    (getAllStudents envOk qCourse).trace =
      [DbCall.count, DbCall.findAll (listArgs qCourse)] ∧
    (listArgs qCourse).includes = [Model.Course] :=
  ⟨(c3_populate_course envOk qCourse 5 rfl).1.1,
    ((c3_populate_course envOk qCourse 5 rfl).2.1).mpr (by decide)⟩

/-- C5: every findAll call a list handler issues requests exactly the
effective limit many records at offset (effective page - 1) times the
effective limit. -/
theorem c5_pagination_args (env : Env) (q : Query) (args : FindAllArgs)
    (h : DbCall.findAll args ∈ (getAllStudents env q).trace ∨
      DbCall.findAll args ∈ (getAllTeachers env q).trace) :
    args.limit = effLimit q ∧
    args.offset = (effPage q - 1) * effLimit q := by
  rw [findAll_mem_eq env q args h]
  exact ⟨rfl, rfl⟩

/-- C5 witness: the findAll call of a list request with limit 2 requests
effLimit many rows at the offset computed from the effective page. -/
theorem c5_witness :
    (listArgs qLim2).limit = effLimit qLim2 ∧
    (listArgs qLim2).offset = (effPage qLim2 - 1) * effLimit qLim2 :=
  c5_pagination_args envOk qLim2 (listArgs qLim2) (Or.inl (by decide))

/-- C2: every successful list request answers 200 with a meta envelope whose
totalItems is the Course record count, whose page is the effective page, and
whose totalPages is the ceiling of totalItems over the effective limit. -/
theorem c2_meta_envelope (env : Env) (q : Query) (total : Int)
    (rows : List Rec) (hc : env.count = Except.ok total)
    (hf : ∀ a, env.findAll a = Except.ok rows) :
    (getAllStudents env q).outcome = Except.ok ⟨200,
      Body.listing
        ⟨total, effPage q, ⌈(total : ℚ) / ((effLimit q : ℚ))⌉⟩ rows⟩ ∧
    (getAllTeachers env q).outcome = Except.ok ⟨200,
      Body.listing
        ⟨total, effPage q, ⌈(total : ℚ) / ((effLimit q : ℚ))⌉⟩ rows⟩ := by
  constructor <;>
  · simp only [getAllStudents, getAllTeachers, hc, hf]
    rw [jsCeilDiv_eq_ceil]

/-- C2 witness: a concrete successful list request with limit 2 over a
Course count of 5 produces the meta envelope of the claim. -/
theorem c2_witness :
    (getAllStudents envOk qLim2).outcome = Except.ok ⟨200,
      Body.listing
        ⟨5, effPage qLim2, ⌈((5 : ℤ) : ℚ) / ((effLimit qLim2 : ℚ))⌉⟩ []⟩ :=
  (c2_meta_envelope envOk qLim2 5 [] rfl (fun _ => rfl)).1

/-- C8 counterexample: with every query parameter absent, the order argument
actually passed is the lowercase pair (id, asc), which differs from the pair
(id, ASC) stated by the claim. -/
theorem c8_counterexample :
    (getAllStudents envOk qNone).trace =
      [DbCall.count, DbCall.findAll ⟨[], 10, 0, [("id", "asc")]⟩] ∧
    ¬ (listArgs qNone).order = [("id", "ASC")] := by
  exact ⟨by decide, by decide⟩

/-- C8 (amended): when sortBy is absent the sort column defaults to id, when
order is absent the direction defaults to the lowercase string asc, and with
both absent every findAll call carries the order argument [(id, asc)] (the
persistence layer reads asc case-insensitively as ascending). -/
theorem c8_default_sort (env : Env) (q : Query) (args : FindAllArgs) :
    (q.sortBy = none → effSortBy q = "id") ∧
    (q.order = none → effOrder q = "asc") ∧
    (q.sortBy = none → q.order = none →
      (DbCall.findAll args ∈ (getAllStudents env q).trace ∨
        DbCall.findAll args ∈ (getAllTeachers env q).trace) →
      args.order = [("id", "asc")]) := by
  refine ⟨?_, ?_, ?_⟩
  · intro hs
    simp [effSortBy, strOr, hs]
  · intro ho
    simp [effOrder, strOr, ho]
  · intro hs ho hm
    rw [findAll_mem_eq env q args hm]
    show [(effSortBy q, effOrder q)] = [("id", "asc")]
    simp [effSortBy, effOrder, strOr, hs, ho]

/-- C8 witness: with every parameter absent the defaults are the id column
and the lowercase asc direction, and the passed order argument shows them. -/
theorem c8_witness :
    effSortBy qNone = "id" ∧ effOrder qNone = "asc" ∧
    (listArgs qNone).order = [("id", "asc")] :=
  ⟨(c8_default_sort envOk qNone (listArgs qNone)).1 rfl,
    (c8_default_sort envOk qNone (listArgs qNone)).2.1 rfl,
    (c8_default_sort envOk qNone (listArgs qNone)).2.2 rfl rfl
      (Or.inl (by decide))⟩

/-- C6: when a get-by-id, update or delete request names an id that does not
resolve to a stored record, the handler answers 404 with the fixed Not found
message, the table is unchanged, and for update and delete no instance
update or destroy call is issued. -/
theorem c6_not_found (env : Env) (q : Query) (id : Int) (body : Patch)
    (hp : env.findByPkErr = none)
    (hf : env.table.find? (fun r => r.id == id) = none) :
    ((getStudentById env q id).outcome =
        Except.ok ⟨404, Body.msg "Not found"⟩ ∧
      (getStudentById env q id).table = env.table) ∧
    ((getTeacherById env q id).outcome =
        Except.ok ⟨404, Body.msg "Not found"⟩ ∧
      (getTeacherById env q id).table = env.table) ∧
    ((updateStudent env id body).outcome =
        Except.ok ⟨404, Body.msg "Not found"⟩ ∧
      (updateStudent env id body).table = env.table ∧
      (updateStudent env id body).trace = [DbCall.findByPk id []]) ∧
    ((updateTeacher env id body).outcome =
        Except.ok ⟨404, Body.msg "Not found"⟩ ∧
      (updateTeacher env id body).table = env.table ∧
      (updateTeacher env id body).trace = [DbCall.findByPk id []]) ∧
    ((deleteStudent env id).outcome =
        Except.ok ⟨404, Body.msg "Not found"⟩ ∧
      (deleteStudent env id).table = env.table ∧
      (deleteStudent env id).trace = [DbCall.findByPk id []]) ∧
    ((deleteTeacher env id).outcome =
        Except.ok ⟨404, Body.msg "Not found"⟩ ∧
      (deleteTeacher env id).table = env.table ∧
      (deleteTeacher env id).trace = [DbCall.findByPk id []]) := by
  refine ⟨⟨?_, ?_⟩, ⟨?_, ?_⟩, ⟨?_, ?_, ?_⟩, ⟨?_, ?_, ?_⟩, ⟨?_, ?_, ?_⟩,
    ⟨?_, ?_, ?_⟩⟩ <;>
    simp [getStudentById, getTeacherById, updateStudent, updateTeacher,
      deleteStudent, deleteTeacher, hp, hf]

/-- C6 witness: id 99999 resolves to no record, so get-by-id answers 404 and
delete leaves the table unchanged. -/
theorem c6_witness :
    (getStudentById envOk qNone 99999).outcome =
      Except.ok ⟨404, Body.msg "Not found"⟩ ∧
    (deleteStudent envOk 99999).table = envOk.table :=
  ⟨(c6_not_found envOk qNone 99999 [] rfl (by decide)).1.1,
    (c6_not_found envOk qNone 99999 [] rfl (by decide)).2.2.2.2.1.2.1⟩

/-- C7: an update on an existing record applies exactly the patch: the id is
kept, every attribute not named in the patch is unchanged, and the 200
response carries the fully updated record. -/
theorem c7_partial_patch (env : Env) (id : Int) (body : Patch) (r : Rec)
    (hp : env.findByPkErr = none) (hu : env.updateErr = none)
    (hf : env.table.find? (fun x => x.id == id) = some r) :
    ((updateStudent env id body).outcome =
        Except.ok ⟨200, Body.record (applyPatch r body)⟩ ∧
      (updateTeacher env id body).outcome =
        Except.ok ⟨200, Body.record (applyPatch r body)⟩) ∧
    (applyPatch r body).id = r.id ∧
    (∀ k, body.find? (fun kv => kv.1 == k) = none →
      getAttr (applyPatch r body) k = getAttr r k) := by
  refine ⟨⟨?_, ?_⟩, rfl, fun k hk => getAttr_applyPatch_not_mem r body k hk⟩ <;>
    simp [updateStudent, updateTeacher, hp, hu, hf]

/-- C7 witness: patching only the name of a stored record returns the
updated record and leaves the department attribute unchanged. -/
theorem c7_witness :
    (updateStudent envOk 1 [("name", "X")]).outcome =
      Except.ok ⟨200, Body.record (applyPatch rowAlice [("name", "X")])⟩ ∧
    getAttr (applyPatch rowAlice [("name", "X")]) "department" =
      getAttr rowAlice "department" :=
  ⟨(c7_partial_patch envOk 1 [("name", "X")] rowAlice rfl rfl
      (by decide)).1.1,
    (c7_partial_patch envOk 1 [("name", "X")] rowAlice rfl rfl
      (by decide)).2.2 "department" (by decide)⟩

/-- C9: a non-numeric page or limit parameter falls back to its default
(page 1, limit 10) and the whole list response is the one of the request
without that parameter, so the parse failure never produces an error
response. -/
theorem c9_nonnumeric_defaults (env : Env) (q : Query) (s : String) :
    (q.page = some s → jsParseInt s = none →
      effPage q = 1 ∧
      getAllStudents env q =
        getAllStudents env ⟨none, q.limit, q.sortBy, q.order, q.populate⟩ ∧
      getAllTeachers env q =
        getAllTeachers env ⟨none, q.limit, q.sortBy, q.order, q.populate⟩) ∧
    (q.limit = some s → jsParseInt s = none →
      effLimit q = 10 ∧
      getAllStudents env q =
        getAllStudents env ⟨q.page, none, q.sortBy, q.order, q.populate⟩ ∧
      getAllTeachers env q =
        getAllTeachers env ⟨q.page, none, q.sortBy, q.order, q.populate⟩) := by
  constructor
  · intro hp hparse
    have h2 : effPage q = 1 := by
      unfold effPage
      rw [hp, show (some s).bind jsParseInt = jsParseInt s from rfl, hparse]
      rfl
    have hcon := getAll_congr env q
      ⟨none, q.limit, q.sortBy, q.order, q.populate⟩ rfl (by rw [h2]; rfl)
      rfl rfl rfl
    exact ⟨h2, hcon.1, hcon.2⟩
  · intro hl hparse
    have h2 : effLimit q = 10 := by
      unfold effLimit
      rw [hl, show (some s).bind jsParseInt = jsParseInt s from rfl, hparse]
      rfl
    have hcon := getAll_congr env q
      ⟨q.page, none, q.sortBy, q.order, q.populate⟩ (by rw [h2]; rfl) rfl
      rfl rfl rfl
    exact ⟨h2, hcon.1, hcon.2⟩

/-- C9 witness: the non-numeric page abc and limit xyz fall back to page 1
and limit 10, and the student list response equals the one without the page
parameter. -/
theorem c9_witness :
    effPage qBad = 1 ∧ effLimit qBad = 10 ∧
    getAllStudents envOk qBad =
      getAllStudents envOk ⟨none, qBad.limit, qBad.sortBy, qBad.order,
        qBad.populate⟩ :=
  ⟨((c9_nonnumeric_defaults envOk qBad "abc").1 rfl (by decide)).1,
    ((c9_nonnumeric_defaults envOk qBad "xyz").2 rfl (by decide)).1,
    ((c9_nonnumeric_defaults envOk qBad "abc").1 rfl (by decide)).2.1⟩

/-- C10: a page or limit equal to the string 0 falls back to its default
exactly as non-numeric input does, because the parsed 0 is falsy; a negative
parsed page or limit is not replaced and flows into the pagination argument
computation unchanged. -/
theorem c10_zero_and_negative (env : Env) (q : Query) (s : String)
    (n t : Int) (hc : env.count = Except.ok t) :
    (q.page = some "0" → effPage q = 1) ∧
    (q.limit = some "0" → effLimit q = 10) ∧
    (q.page = some s → jsParseInt s = some n → n < 0 →
      effPage q = n ∧
      (getAllStudents env q).trace =
        [DbCall.count, DbCall.findAll (listArgs q)] ∧
      (listArgs q).offset = (n - 1) * effLimit q) ∧
    (q.limit = some s → jsParseInt s = some n → n < 0 →
      effLimit q = n ∧ (listArgs q).limit = n) := by
  refine ⟨?_, ?_, ?_, ?_⟩
  · intro hp
    unfold effPage
    rw [hp, show (some "0").bind jsParseInt = jsParseInt "0" from rfl,
      show jsParseInt "0" = some 0 from by decide]
    rfl
  · intro hl
    unfold effLimit
    rw [hl, show (some "0").bind jsParseInt = jsParseInt "0" from rfl,
      show jsParseInt "0" = some 0 from by decide]
    rfl
  · intro hp hn hneg
    have hep : effPage q = n := by
      unfold effPage
      rw [hp, show (some s).bind jsParseInt = jsParseInt s from rfl, hn]
      simp only [jsOrInt]
      rw [if_neg (by omega)]
    refine ⟨hep, (list_trace env q t hc).1, ?_⟩
    show (effPage q - 1) * effLimit q = (n - 1) * effLimit q
    rw [hep]
  · intro hl hn hneg
    have hel : effLimit q = n := by
      unfold effLimit
      rw [hl, show (some s).bind jsParseInt = jsParseInt s from rfl, hn]
      simp only [jsOrInt]
      rw [if_neg (by omega)]
    exact ⟨hel, hel⟩

/-- C10 witness: limit 0 falls back to 10 while page -2 passes through into
the offset computation. -/
theorem c10_witness :
    effLimit qZeroNeg = 10 ∧ effPage qZeroNeg = -2 ∧
    (listArgs qZeroNeg).offset = (-2 - 1) * effLimit qZeroNeg :=
  ⟨(c10_zero_and_negative envOk qZeroNeg "-2" (-2) 5 rfl).2.1 rfl,
    ((c10_zero_and_negative envOk qZeroNeg "-2" (-2) 5 rfl).2.2.1 rfl
      (by decide) (by decide)).1,
    ((c10_zero_and_negative envOk qZeroNeg "-2" (-2) 5 rfl).2.2.1 rfl
      (by decide) (by decide)).2.2⟩

/-- C1 counterexample: with a persistence environment whose count call
rejects, the student list handler does not answer 500 with the raw message;
the rejection escapes the handler uncaught. -/
theorem c1_counterexample :
    (getAllStudents envCountFail qNone).outcome = Except.error "boom" ∧
    ¬ (getAllStudents envCountFail qNone).outcome =
        Except.ok ⟨500, Body.err "boom"⟩ := by
  exact ⟨by decide, by decide⟩

/-- C1 (amended): every failure raised by the persistence collaborator
inside a handler's try block is caught there and answered with status 500
and the raw error message, for create, list findAll, get-by-id, update and
delete on both entities; but the count call of the list operation is awaited
outside the try block, so its failure escapes the handler uncaught instead
of being answered with 500. -/
theorem c1_failures_caught :
    (∀ (env : Env) (b : Patch) (e : String), env.create b = Except.error e →
      (createStudent env b).outcome = Except.ok ⟨500, Body.err e⟩ ∧
      (createTeacher env b).outcome = Except.ok ⟨500, Body.err e⟩) ∧
    (∀ (env : Env) (q : Query) (t : Int) (e : String),
      env.count = Except.ok t →
      (∀ a, env.findAll a = Except.error e) →
      (getAllStudents env q).outcome = Except.ok ⟨500, Body.err e⟩ ∧
      (getAllTeachers env q).outcome = Except.ok ⟨500, Body.err e⟩) ∧
    (∀ (env : Env) (q : Query) (e : String), env.count = Except.error e →
      (getAllStudents env q).outcome = Except.error e ∧
      (getAllTeachers env q).outcome = Except.error e) ∧
    (∀ (env : Env) (q : Query) (id : Int) (b : Patch) (e : String),
      env.findByPkErr = some e →
      (getStudentById env q id).outcome = Except.ok ⟨500, Body.err e⟩ ∧
      (getTeacherById env q id).outcome = Except.ok ⟨500, Body.err e⟩ ∧
      (updateStudent env id b).outcome = Except.ok ⟨500, Body.err e⟩ ∧
      (updateTeacher env id b).outcome = Except.ok ⟨500, Body.err e⟩ ∧
      (deleteStudent env id).outcome = Except.ok ⟨500, Body.err e⟩ ∧
      (deleteTeacher env id).outcome = Except.ok ⟨500, Body.err e⟩) ∧
    (∀ (env : Env) (id : Int) (b : Patch) (e : String) (r : Rec),
      env.findByPkErr = none → env.updateErr = some e →
      env.table.find? (fun x => x.id == id) = some r →
      (updateStudent env id b).outcome = Except.ok ⟨500, Body.err e⟩ ∧
      (updateTeacher env id b).outcome = Except.ok ⟨500, Body.err e⟩) ∧
    (∀ (env : Env) (id : Int) (e : String) (r : Rec),
      env.findByPkErr = none → env.destroyErr = some e →
      env.table.find? (fun x => x.id == id) = some r →
      (deleteStudent env id).outcome = Except.ok ⟨500, Body.err e⟩ ∧
      (deleteTeacher env id).outcome = Except.ok ⟨500, Body.err e⟩) := by
  refine ⟨?_, ?_, ?_, ?_, ?_, ?_⟩
  · intro env b e h
    constructor <;> simp [createStudent, createTeacher, h]
  · intro env q t e hc hfa
    constructor <;>
      simp [getAllStudents, getAllTeachers, hc, hfa (listArgs q)]
  · intro env q e hc
    constructor <;> simp [getAllStudents, getAllTeachers, hc]
  · intro env q id b e h
    refine ⟨?_, ?_, ?_, ?_, ?_, ?_⟩ <;>
      simp [getStudentById, getTeacherById, updateStudent, updateTeacher,
        deleteStudent, deleteTeacher, h]
  · intro env id b e r hp hu hf
    constructor <;> simp [updateStudent, updateTeacher, hp, hu, hf]
  · intro env id e r hp hd hf
    constructor <;> simp [deleteStudent, deleteTeacher, hp, hd, hf]

/-- C1 witness: one concrete failing call of each kind, answered 500 when it
happens inside the try block and escaping uncaught for the count call. -/
theorem c1_witness :
    (createStudent envCreateFail []).outcome =
      Except.ok ⟨500, Body.err "cfail"⟩ ∧
    (getAllStudents envFindAllFail qNone).outcome =
      Except.ok ⟨500, Body.err "ffail"⟩ ∧
    (getAllStudents envCountFail qNone).outcome = Except.error "boom" ∧
    (getStudentById envPkFail qNone 1).outcome =
      Except.ok ⟨500, Body.err "pfail"⟩ ∧
    (updateStudent envUpdateFail 1 []).outcome =
      Except.ok ⟨500, Body.err "ufail"⟩ ∧
    (deleteStudent envDestroyFail 1).outcome =
      Except.ok ⟨500, Body.err "dfail"⟩ :=
  ⟨(c1_failures_caught.1 envCreateFail [] "cfail" rfl).1,
    (c1_failures_caught.2.1 envFindAllFail qNone 5 "ffail" rfl
      (fun _ => rfl)).1,
    (c1_failures_caught.2.2.1 envCountFail qNone "boom" rfl).1,
    (c1_failures_caught.2.2.2.1 envPkFail qNone 1 [] "pfail" rfl).1,
    (c1_failures_caught.2.2.2.2.1 envUpdateFail 1 [] "ufail" rowAlice rfl
      rfl (by decide)).1,
    (c1_failures_caught.2.2.2.2.2 envDestroyFail 1 "dfail" rowAlice rfl
      rfl (by decide)).1⟩

end SchoolApi
